import Mathlib

/-!
Shallow embedding of the Flask trip-dashboard application (`src/app.py`) and
proofs about its specified behaviour.

Modelling conventions:
* Python `float` values that the handlers manipulate are modelled as `ℚ`.
  The handlers only parse short decimal strings, compare against `0`, add,
  subtract and round to two decimals, so rational arithmetic is an exact
  model of every behaviour the theorems below mention.  `float(...)` string
  parsing is modelled by `parseFloat`, which covers sign / digits / decimal
  point / exponent; the special spellings (`inf`, `nan`, underscore
  separators, non-ASCII digits) are outside the model.
* Python's `str.strip()` is modelled by `pyStrip` (ASCII whitespace).
* The mutable module-level globals (`tasks`, `task_id_counter`, `expenses`,
  `expense_id_counter`, `total_trip_budget`) become the fields of `AppState`,
  and each Flask handler becomes a state-transformer taking the form fields
  as `Option String` (`none` models an absent form key, matching
  `request.form.get(key, default)`).
* Exceptions are modelled with `Except Unit`; a raised exception is
  `Except.error ()`.
-/

namespace FlaskTrip

/-! ## Decimal digits, rendering of naturals (Python `str(n)` for `n : Nat`) -/

/-- Decimal digit character for `d % 10` (code point `48 + d % 10`). -/
def digitChar (d : Nat) : Char := Char.ofNat (48 + d % 10)

/-- Numeric value of a decimal digit character. -/
def digitVal (c : Char) : Nat := c.toNat - 48

/-- Value of a list of decimal digit characters, most significant first. -/
def digitsVal (l : List Char) : Nat :=
  l.foldl (fun a c => a * 10 + digitVal c) 0

/-- Fuel-driven rendering of a natural number as decimal digits, pushed in
front of `acc`.  `fuel = n + 1` is always sufficient. -/
def natStrAux : Nat → Nat → List Char → List Char
  | 0, _, acc => acc
  | fuel + 1, n, acc =>
    if n < 10 then digitChar n :: acc
    else natStrAux fuel (n / 10) (digitChar (n % 10) :: acc)

/-- Decimal rendering of a natural number; models Python `str(n)` for the
(non-negative) id counters of `app.py`. -/
def natStr (n : Nat) : String := String.mk (natStrAux (n + 1) n [])

/-! ## Python `float()` on decimal strings -/

/-- Exponent part of a float literal: optional sign then digits; scales the
mantissa by the corresponding power of ten. -/
def parseFloatExpPart (mantissa : ℚ) (l : List Char) : Option ℚ :=
  let signAndRest : ℤ × List Char :=
    match l with
    | '+' :: r => (1, r)
    | '-' :: r => (-1, r)
    | r => (1, r)
  let ds := List.span Char.isDigit signAndRest.2
  if ds.1.isEmpty ∨ ¬ ds.2.isEmpty then none
  else some (mantissa * (10 : ℚ) ^ (signAndRest.1 * (digitsVal ds.1 : ℤ)))

/-- Unsigned part of a float literal: `digits [. digits] [exp]`, with at
least one digit in the mantissa. -/
def parseFloatAux (l : List Char) : Option ℚ :=
  let intPart := List.span Char.isDigit l
  match intPart.2 with
  | [] => if intPart.1.isEmpty then none else some (digitsVal intPart.1 : ℚ)
  | '.' :: r2 =>
    let fracPart := List.span Char.isDigit r2
    if intPart.1.isEmpty ∧ fracPart.1.isEmpty then none
    else
      let m : ℚ :=
        (digitsVal intPart.1 : ℚ) + (digitsVal fracPart.1 : ℚ) / (10 : ℚ) ^ fracPart.1.length
      match fracPart.2 with
      | [] => some m
      | 'e' :: r4 => parseFloatExpPart m r4
      | 'E' :: r4 => parseFloatExpPart m r4
      | _ => none
  | 'e' :: r2 =>
    if intPart.1.isEmpty then none else parseFloatExpPart (digitsVal intPart.1 : ℚ) r2
  | 'E' :: r2 =>
    if intPart.1.isEmpty then none else parseFloatExpPart (digitsVal intPart.1 : ℚ) r2
  | _ => none

/-- Python `float(s)` on finite decimal literals: optional sign, digits,
optional fractional part and exponent.  Returns `none` exactly when Python
raises `ValueError` (within the modelled literal subset). -/
def parseFloat (s : String) : Option ℚ :=
  match s.data with
  | '+' :: r => parseFloatAux r
  | '-' :: r => (parseFloatAux r).map Neg.neg
  | r => parseFloatAux r

/-! ## Python `str.strip()` -/

/-- ASCII whitespace stripped by Python's `str.strip()`. -/
def isSpaceChar (c : Char) : Bool :=
  c = ' ' ∨ c = '\t' ∨ c = '\n' ∨ c = '\r' ∨ c = '\x0b' ∨ c = '\x0c'

/-- Python `s.strip()`: remove leading and trailing whitespace. -/
def pyStrip (s : String) : String :=
  String.mk (((s.data.dropWhile isSpaceChar).reverse.dropWhile isSpaceChar).reverse)

/-! ## Rounding to two decimals and `f"{x:.2f}"` formatting -/

/-- Nearest integer to `q`, ties going to the even integer (the rounding
used by Python float formatting). -/
def roundHalfEven (q : ℚ) : ℤ :=
  let f := Int.floor q
  let r := q - (f : ℚ)
  if r < 1 / 2 then f
  else if r > 1 / 2 then f + 1
  else if f % 2 = 0 then f else f + 1

/-- Value of `float(f"{q:.2f}")`: `q` rounded to two decimal places. -/
def round2 (q : ℚ) : ℚ := (roundHalfEven (q * 100) : ℚ) / 100

/-- Python `f"{q:.2f}"`: optional minus sign, integer part, a dot, then
exactly two decimal digit characters. -/
def formatTwo (q : ℚ) : String :=
  let n := roundHalfEven (q * 100)
  let a := n.natAbs
  let sgn := if n < 0 then "-" else ""
  sgn ++ natStr (a / 100) ++ "." ++ String.mk [digitChar (a / 10 % 10), digitChar (a % 10)]

/-! ## Application state (the module-level globals of `app.py`) -/

/-- Record stored in the `tasks` list (`app.py` lines 169-173). -/
structure Task where
  task_id : String
  text : String
  location : String
deriving DecidableEq, Repr

/-- Record stored in the `expenses` list (`app.py` lines 208-213). -/
structure Expense where
  expense_id : String
  description : String
  amount : String
  category : String
deriving DecidableEq, Repr

/-- The five module-level globals of `app.py` (lines 12-20). -/
structure AppState where
  tasks : List Task
  task_id_counter : Nat
  expenses : List Expense
  expense_id_counter : Nat
  total_trip_budget : ℚ
deriving DecidableEq, Repr

/-- Initial values of the globals: empty stores, counters at 1, budget 0. -/
def initialState : AppState :=
  { tasks := [], task_id_counter := 1, expenses := [], expense_id_counter := 1,
    total_trip_budget := 0 }

/-! ## CRUD handlers -/

/-- Handler `add_task` (`app.py` lines 159-178).  The two arguments model
`request.form.get('task-input', '')` and `request.form.get('location-input', '')`. -/
def add_task (s : AppState) (taskInput locationInput : Option String) : AppState :=
  let task_text := pyStrip (taskInput.getD "")
  let location_text := pyStrip (locationInput.getD "")
  if task_text ≠ "" then
    { s with
      tasks := { task_id := natStr s.task_id_counter, text := task_text,
                 location := location_text } :: s.tasks,
      task_id_counter := s.task_id_counter + 1 }
  else s

/-- Handler `delete_task` (`app.py` lines 180-187): keeps the tasks whose id
does not match. -/
def delete_task (s : AppState) (task_id : String) : AppState :=
  { s with tasks := s.tasks.filter (fun t => t.task_id ≠ task_id) }

/-- Handler `add_expense` (`app.py` lines 191-217).  Arguments model the form
fields `expense-description`, `expense-amount` and `expense-category` (the
last defaults to `"Other"` when the key is absent). -/
def add_expense (s : AppState) (descriptionInput amountInput categoryInput : Option String) :
    AppState :=
  let description := pyStrip (descriptionInput.getD "")
  let amount_str := pyStrip (amountInput.getD "")
  let category := pyStrip (categoryInput.getD "Other")
  match parseFloat amount_str with
  | none => s
  | some amount_float =>
    if description ≠ "" ∧ 0 ≤ amount_float then
      { s with
        expenses := { expense_id := natStr s.expense_id_counter, description := description,
                      amount := formatTwo amount_float, category := category } :: s.expenses,
        expense_id_counter := s.expense_id_counter + 1 }
    else s

/-- Handler `delete_expense` (`app.py` lines 219-226). -/
def delete_expense (s : AppState) (expense_id : String) : AppState :=
  { s with expenses := s.expenses.filter (fun e => e.expense_id ≠ expense_id) }

/-- Handler `set_budget` (`app.py` lines 140-156).  The argument models
`request.form.get('total-budget-input', '0.00')`. -/
def set_budget (s : AppState) (budgetInput : Option String) : AppState :=
  let budget_str := pyStrip (budgetInput.getD "0.00")
  match parseFloat budget_str with
  | none => s
  | some new_budget =>
    if 0 ≤ new_budget then { s with total_trip_budget := round2 new_budget } else s

/-- One step of `sum(float(e.get('amount', '0.00')) for e in expenses)`
(`app.py` line 125): add `float(e.amount)` to the running sum; a raised
`ValueError` (unparseable stored amount) is `Except.error ()` and propagates. -/
def sumStep (acc : Except Unit ℚ) (e : Expense) : Except Unit ℚ :=
  match acc, parseFloat e.amount with
  | Except.ok t, some q => Except.ok (t + q)
  | Except.ok _, none => Except.error ()
  | Except.error u, _ => Except.error u

/-- Computation `total_expenses = sum(float(e.get('amount', '0.00')) for e in
expenses)` from the `index` handler (`app.py` line 125). -/
def total_expenses (s : AppState) : Except Unit ℚ :=
  s.expenses.foldl sumStep (Except.ok 0)

/-- Computation `remaining_budget = total_trip_budget - total_expenses` from
the `index` handler (`app.py` line 128), recomputed from the current state on
every call. -/
def remaining_budget (s : AppState) : Except Unit ℚ :=
  (total_expenses s).map (fun t => s.total_trip_budget - t)

/-! ## Operation traces (for the id-uniqueness invariant) -/

/-- One mutating HTTP request against the stores. -/
inductive Op where
  | addTaskOp (taskInput locationInput : Option String)
  | deleteTaskOp (id : String)
  | addExpenseOp (descriptionInput amountInput categoryInput : Option String)
  | deleteExpenseOp (id : String)
  | setBudgetOp (budgetInput : Option String)
deriving DecidableEq, Repr

/-- Dispatch of one request to its handler. -/
def applyOp (s : AppState) : Op → AppState
  | Op.addTaskOp t l => add_task s t l
  | Op.deleteTaskOp i => delete_task s i
  | Op.addExpenseOp d a c => add_expense s d a c
  | Op.deleteExpenseOp i => delete_expense s i
  | Op.setBudgetOp b => set_budget s b

/-- State after a sequence of requests. -/
def runOps (s : AppState) (ops : List Op) : AppState := ops.foldl applyOp s

/-- Task ids handed out along a trace: an id is issued exactly when the task
counter moves, and the issued id is `str(counter)` at that moment. -/
def issuedTaskIds (s : AppState) : List Op → List String
  | [] => []
  | op :: ops =>
    let s2 := applyOp s op
    (if s2.task_id_counter ≠ s.task_id_counter then [natStr s.task_id_counter] else [])
      ++ issuedTaskIds s2 ops

/-- Expense ids handed out along a trace. -/
def issuedExpenseIds (s : AppState) : List Op → List String
  | [] => []
  | op :: ops =>
    let s2 := applyOp s op
    (if s2.expense_id_counter ≠ s.expense_id_counter then [natStr s.expense_id_counter] else [])
      ++ issuedExpenseIds s2 ops

/-! ## JSON values and `json.loads` -/

/-- JSON values, as produced by Python's `json` module (`dict`s are modelled
as association lists with distinct keys). -/
inductive Json where
  | null : Json
  | bool : Bool → Json
  | num : ℚ → Json
  | str : String → Json
  | arr : List Json → Json
  | obj : List (String × Json) → Json
deriving Repr

/-- Test for being a JSON array. -/
def isArr : Json → Bool
  | Json.arr _ => true
  | _ => false

/-- JSON whitespace. -/
def jsonWs (c : Char) : Bool := c = ' ' ∨ c = '\t' ∨ c = '\n' ∨ c = '\r'

/-- Drop leading JSON whitespace. -/
def skipWs (l : List Char) : List Char := l.dropWhile jsonWs

/-- JSON integer part: `0` or a nonzero digit followed by digits (leading
zeros are rejected, as Python's `json.loads` does). -/
def parseJsonInt : List Char → Option (Nat × List Char)
  | '0' :: r => some (0, r)
  | c :: r =>
    if c.isDigit ∧ c ≠ '0' then
      let ds := List.span Char.isDigit r
      some (digitsVal (c :: ds.1), ds.2)
    else none
  | [] => none

/-- JSON fraction part: optional `. digits`. -/
def parseJsonFrac (ip : ℚ) : List Char → Option (ℚ × List Char)
  | '.' :: r =>
    let ds := List.span Char.isDigit r
    if ds.1.isEmpty then none
    else some (ip + (digitsVal ds.1 : ℚ) / (10 : ℚ) ^ ds.1.length, ds.2)
  | r => some (ip, r)

/-- JSON exponent digits after `e`/`E`: optional sign then digits. -/
def parseJsonExpDigits (m : ℚ) (l : List Char) : Option (ℚ × List Char) :=
  let signAndRest : ℤ × List Char :=
    match l with
    | '+' :: r => (1, r)
    | '-' :: r => (-1, r)
    | r => (1, r)
  let ds := List.span Char.isDigit signAndRest.2
  if ds.1.isEmpty then none
  else some (m * (10 : ℚ) ^ (signAndRest.1 * (digitsVal ds.1 : ℤ)), ds.2)

/-- JSON exponent part: optional `e`/`E` exponent. -/
def parseJsonExpPart (m : ℚ) : List Char → Option (ℚ × List Char)
  | 'e' :: r => parseJsonExpDigits m r
  | 'E' :: r => parseJsonExpDigits m r
  | r => some (m, r)

/-- JSON number: optional minus sign, integer part, fraction, exponent. -/
def parseJsonNumber (l : List Char) : Option (ℚ × List Char) :=
  let negAndRest : Bool × List Char :=
    match l with
    | '-' :: r => (true, r)
    | r => (false, r)
  match parseJsonInt negAndRest.2 with
  | none => none
  | some (ip, r1) =>
    match parseJsonFrac (ip : ℚ) r1 with
    | none => none
    | some (m, r2) =>
      match parseJsonExpPart m r2 with
      | none => none
      | some (v, r3) => some (if negAndRest.1 then -v else v, r3)

/-- Hexadecimal digit value. -/
def hexVal (c : Char) : Option Nat :=
  if c.isDigit then some (c.toNat - 48)
  else if 'a' ≤ c ∧ c ≤ 'f' then some (c.toNat - 87)
  else if 'A' ≤ c ∧ c ≤ 'F' then some (c.toNat - 55)
  else none

/-- Body of a JSON string after the opening quote, up to and past the closing
quote.  Escapes `\" \\ \/ \b \f \n \r \t \uXXXX` are supported (surrogate
pairs are not recombined); unescaped control characters are rejected, as in
Python's strict `json.loads`. -/
def parseJsonStringBody : Nat → List Char → Option (List Char × List Char)
  | 0, _ => none
  | fuel + 1, l =>
    match l with
    | '"' :: r => some ([], r)
    | '\\' :: 'u' :: h1 :: h2 :: h3 :: h4 :: r =>
      (match hexVal h1, hexVal h2, hexVal h3, hexVal h4 with
       | some a, some b, some c, some d =>
         (parseJsonStringBody fuel r).map
           (fun p => (Char.ofNat (((a * 16 + b) * 16 + c) * 16 + d) :: p.1, p.2))
       | _, _, _, _ => none)
    | '\\' :: e :: r =>
      (match
        (match e with
         | '"' => some '"'
         | '\\' => some '\\'
         | '/' => some '/'
         | 'b' => some (Char.ofNat 8)
         | 'f' => some (Char.ofNat 12)
         | 'n' => some '\n'
         | 'r' => some '\r'
         | 't' => some '\t'
         | _ => none) with
       | some c => (parseJsonStringBody fuel r).map (fun p => (c :: p.1, p.2))
       | none => none)
    | c :: r =>
      if c.toNat < 32 then none
      else (parseJsonStringBody fuel r).map (fun p => (c :: p.1, p.2))
    | [] => none

/-- Insertion of a parsed object member in front of the members parsed after
it: Python's `dict` keeps the later value for a duplicate key, so an earlier
member whose key reappears later is dropped. -/
def objInsert (k : String) (v : Json) (fs : List (String × Json)) : List (String × Json) :=
  if fs.any (fun f => f.1 = k) then fs else (k, v) :: fs

mutual

/-- Fuel-driven recursive-descent parse of one JSON value.  `fuel` only has
to cover the nesting traversal, so `input length + 1` is always enough. -/
def parseJsonValue : Nat → List Char → Option (Json × List Char)
  | 0, _ => none
  | fuel + 1, l =>
    match skipWs l with
    | 'n' :: 'u' :: 'l' :: 'l' :: r => some (Json.null, r)
    | 't' :: 'r' :: 'u' :: 'e' :: r => some (Json.bool true, r)
    | 'f' :: 'a' :: 'l' :: 's' :: 'e' :: r => some (Json.bool false, r)
    | '"' :: r =>
      (match parseJsonStringBody (r.length + 1) r with
       | some (cs, rest) => some (Json.str (String.mk cs), rest)
       | none => none)
    | '[' :: r =>
      (match skipWs r with
       | ']' :: r2 => some (Json.arr [], r2)
       | r2 =>
         match parseJsonItems fuel r2 with
         | some (xs, rest) => some (Json.arr xs, rest)
         | none => none)
    | '\x7b' :: r =>
      (match skipWs r with
       | '\x7d' :: r2 => some (Json.obj [], r2)
       | r2 =>
         match parseJsonMembers fuel r2 with
         | some (fs, rest) => some (Json.obj fs, rest)
         | none => none)
    | r =>
      match parseJsonNumber r with
      | some (q, rest) => some (Json.num q, rest)
      | none => none

/-- Comma-separated JSON array items up to the closing bracket. -/
def parseJsonItems : Nat → List Char → Option (List Json × List Char)
  | 0, _ => none
  | fuel + 1, l =>
    match parseJsonValue fuel l with
    | none => none
    | some (v, r) =>
      match skipWs r with
      | ',' :: r2 =>
        (match parseJsonItems fuel r2 with
         | some (xs, rest) => some (v :: xs, rest)
         | none => none)
      | ']' :: r2 => some ([v], r2)
      | _ => none

/-- Comma-separated JSON object members up to the closing brace. -/
def parseJsonMembers : Nat → List Char → Option (List (String × Json) × List Char)
  | 0, _ => none
  | fuel + 1, l =>
    match skipWs l with
    | '"' :: r =>
      (match parseJsonStringBody (r.length + 1) r with
       | none => none
       | some (key, r1) =>
         match skipWs r1 with
         | ':' :: r2 =>
           (match parseJsonValue fuel r2 with
            | none => none
            | some (v, r3) =>
              match skipWs r3 with
              | ',' :: r4 =>
                (match parseJsonMembers fuel r4 with
                 | some (fs, rest) => some (objInsert (String.mk key) v fs, rest)
                 | none => none)
              | '\x7d' :: r4 => some ([(String.mk key, v)], r4)
              | _ => none)
         | _ => none)
    | _ => none

end

/-- Python `json.loads`: parse one value surrounded by optional whitespace;
`Except.error ()` models a raised `json.JSONDecodeError`. -/
def loads (s : String) : Except Unit Json :=
  match parseJsonValue (s.length + 1) s.data with
  | some (v, rest) => if (skipWs rest).isEmpty then Except.ok v else Except.error ()
  | none => Except.error ()

/-! ## The suggestion gateway (`get_suggestions`, `app.py` lines 29-115) -/

/-- Python `d.get(key, dflt)` applied to a JSON value: raises
(`AttributeError`) unless the value is an object. -/
def jGet (j : Json) (key : String) (dflt : Json) : Except Unit Json :=
  match j with
  | Json.obj fields =>
    (match fields.lookup key with
     | some v => Except.ok v
     | none => Except.ok dflt)
  | _ => Except.error ()

/-- Python `x[0]` applied to a JSON value: first element of a list, first
character of a string, a raised exception otherwise (`IndexError`,
`TypeError` or `KeyError`). -/
def jIndex0 : Json → Except Unit Json
  | Json.arr (x :: _) => Except.ok x
  | Json.arr [] => Except.error ()
  | Json.str s =>
    (match s.data with
     | c :: _ => Except.ok (Json.str (String.mk [c]))
     | [] => Except.error ())
  | _ => Except.error ()

/-- The extraction chain of `app.py` line 90:
`result.get('candidates', [{}])[0].get('content', {}).get('parts', [{}])[0].get('text', '{}')`. -/
def extractText (result : Json) : Except Unit Json := do
  let cands ← jGet result "candidates" (Json.arr [Json.obj []])
  let cand0 ← jIndex0 cands
  let content ← jGet cand0 "content" (Json.obj [])
  let parts ← jGet content "parts" (Json.arr [Json.obj []])
  let part0 ← jIndex0 parts
  jGet part0 "text" (Json.str "\x7b\x7d")

/-- Body of the 200 branch of `get_suggestions` (`app.py` lines 87-99): the
extracted text is parsed with `json.loads` and returned as-is on success;
a `JSONDecodeError` and every other raised exception (caught by the outer
handler at line 113) produce `jsonify([])`. -/
def handle200 (result : Json) : Json :=
  match extractText result with
  | Except.ok (Json.str s) =>
    (match loads s with
     | Except.ok v => v
     | Except.error _ => Json.arr [])
  | Except.ok _ => Json.arr []
  | Except.error _ => Json.arr []

/-- One simulated backend response: the HTTP status and the outcome of
`response.json()` (only consulted on status 200). -/
structure HttpResp where
  status : Nat
  body : Except Unit Json

/-- Observable outcome of one `get_suggestions` call: the JSON value sent to
the client, the number of `requests.post` attempts made, and the arguments of
the `time.sleep` calls in order. -/
structure GatewayResult where
  response : Json
  attempts : Nat
  sleeps : List ℚ
deriving Repr

/-- Constant `max_retries` (`app.py` line 81). -/
def max_retries : Nat := 3

/-- Test `response.status_code in [429, 500, 503]` (`app.py` line 102). -/
def retryableStatus (n : Nat) : Bool := n = 429 ∨ n = 500 ∨ n = 503

/-- The retry loop of `get_suggestions` (`app.py` lines 84-111).  `resps i`
is the outcome of the `requests.post` call of attempt `i` (`Except.error ()`
models a raised transport exception, caught by the outer handler), `fuel` is
the number of loop iterations still available (`max_retries - i`), `delay`
the current backoff delay and `slept` the sleeps so far in reverse order. -/
def suggestionLoop (resps : Nat → Except Unit HttpResp) :
    Nat → Nat → ℚ → List ℚ → GatewayResult
  | 0, i, _, slept => { response := Json.arr [], attempts := i, sleeps := slept.reverse }
  | fuel + 1, i, delay, slept =>
    match resps i with
    | Except.error _ => { response := Json.arr [], attempts := i + 1, sleeps := slept.reverse }
    | Except.ok r =>
      if r.status = 200 then
        match r.body with
        | Except.error _ =>
          { response := Json.arr [], attempts := i + 1, sleeps := slept.reverse }
        | Except.ok result =>
          { response := handle200 result, attempts := i + 1, sleeps := slept.reverse }
      else if retryableStatus r.status = true ∧ 0 < fuel then
        suggestionLoop resps fuel (i + 1) (delay * 2) (delay :: slept)
      else
        { response := Json.arr [], attempts := i + 1, sleeps := slept.reverse }

/-- Handler `get_suggestions` (`app.py` lines 29-115).  `query` models
`request.json.get('query', '')`; queries shorter than 3 characters after
trimming short-circuit to an empty array with no attempt. -/
def get_suggestions (query : Option String) (resps : Nat → Except Unit HttpResp) :
    GatewayResult :=
  if (pyStrip (query.getD "")).length < 3 then
    { response := Json.arr [], attempts := 0, sleeps := [] }
  else suggestionLoop resps max_retries 0 1 []

/-! ## Auxiliary definitions used by the statements and proofs -/

/-- Value recovered from a digit-character list, most significant first. -/
def valAux (l : List Char) : Nat := l.foldl (fun a c => a * 10 + (c.toNat - 48)) 0

/-- Property of a string that consists of a dot-free part followed by a dot
and exactly two decimal digit characters. -/
def twoDecimalFormat (s : String) : Prop :=
  ∃ pre d1 d2, s.data = pre ++ '.' :: [d1, d2]
    ∧ (∀ c ∈ pre, c ≠ '.') ∧ d1.isDigit = true ∧ d2.isDigit = true

/-- Sleep delays produced by `n` retries starting from delay `d`, doubling
after each sleep (`app.py` lines 103-104). -/
def doublingFrom (d : ℚ) : Nat → List ℚ
  | 0 => []
  | n + 1 => d :: doublingFrom (d * 2) n

/-- Backend body whose extracted text is the valid JSON array `[]`. -/
def okJsonBody : Json :=
  Json.obj [("candidates", Json.arr [Json.obj [("content",
    Json.obj [("parts", Json.arr [Json.obj [("text", Json.str "[]")]])])]])]

/-- Simulated backend: 503, then 503, then 200 with a valid JSON payload. -/
def retryScenario : Nat → Except Unit HttpResp :=
  fun i =>
    if i = 0 then Except.ok { status := 503, body := Except.error () }
    else if i = 1 then Except.ok { status := 503, body := Except.error () }
    else Except.ok { status := 200, body := Except.ok okJsonBody }

/-- Simulated backend that always answers 200 with a body whose candidate
structure is missing, so the extracted text defaults to the string `"{}"`. -/
def objOnlyBackend : Nat → Except Unit HttpResp :=
  fun _ => Except.ok { status := 200, body := Except.ok (Json.obj []) }

/-- Concrete state with budget 100 and a single stored expense of 150.00. -/
def overBudgetState : AppState :=
  { tasks := [], task_id_counter := 1,
    expenses := [{ expense_id := "1", description := "Hotel", amount := "150.00",
                   category := "Other" }],
    expense_id_counter := 2, total_trip_budget := 100 }

section RatEval

/- Batteries marks the arithmetic on `Rat` `@[irreducible]`; making it
semireducible locally lets `decide` and `rfl` evaluate the concrete rational
computations appearing in the witnesses below. -/
attribute [local semireducible] Rat.add Rat.mul Rat.inv Rat.sub Rat.ofScientific

/-! ## Lemmas about decimal rendering -/

theorem isDigit_ofNat48 (m : Nat) (h : m < 10) : (Char.ofNat (48 + m)).isDigit = true := by
  interval_cases m <;> decide

theorem toNat_ofNat48 (m : Nat) (h : m < 10) : (Char.ofNat (48 + m)).toNat = 48 + m := by
  interval_cases m <;> decide

theorem digitChar_isDigit (d : Nat) : (digitChar d).isDigit = true :=
  isDigit_ofNat48 (d % 10) (Nat.mod_lt _ (by norm_num))

theorem digitChar_toNat (d : Nat) : (digitChar d).toNat = 48 + d % 10 :=
  toNat_ofNat48 (d % 10) (Nat.mod_lt _ (by norm_num))

theorem natStrAux_append (fuel : Nat) : ∀ (n : Nat) (acc : List Char),
    natStrAux fuel n acc = natStrAux fuel n [] ++ acc := by
  induction fuel with
  | zero => intro n acc; simp [natStrAux]
  | succ f ih =>
    intro n acc
    by_cases h : n < 10
    · simp [natStrAux, h]
    · simp only [natStrAux, if_neg h]
      rw [ih (n / 10) (digitChar (n % 10) :: acc), ih (n / 10) [digitChar (n % 10)]]
      simp

theorem valAux_natStrAux (fuel : Nat) : ∀ n : Nat, n < 10 ^ fuel →
    valAux (natStrAux fuel n []) = n := by
  induction fuel with
  | zero =>
    intro n hn
    interval_cases n
    simp [natStrAux, valAux]
  | succ f ih =>
    intro n hn
    by_cases h : n < 10
    · simp only [natStrAux, if_pos h, valAux, List.foldl]
      rw [digitChar_toNat]
      omega
    · simp only [natStrAux, if_neg h]
      rw [natStrAux_append]
      have hdiv : n / 10 < 10 ^ f := by
        rw [Nat.div_lt_iff_lt_mul (by norm_num : 0 < 10)]
        calc n < 10 ^ (f + 1) := hn
        _ = 10 ^ f * 10 := by rw [pow_succ]
      have hv := ih (n / 10) hdiv
      simp only [valAux] at hv ⊢
      rw [List.foldl_append, hv]
      simp only [List.foldl]
      rw [digitChar_toNat]
      omega

theorem natStr_injective (m n : Nat) (h : natStr m = natStr n) : m = n := by
  have hdata : natStrAux (m + 1) m [] = natStrAux (n + 1) n [] := congrArg String.data h
  have hm : valAux (natStrAux (m + 1) m []) = m :=
    valAux_natStrAux _ _ (lt_of_lt_of_le (Nat.lt_pow_self (by norm_num) m)
      (Nat.pow_le_pow_right (by norm_num) (Nat.le_succ m)))
  have hn : valAux (natStrAux (n + 1) n []) = n :=
    valAux_natStrAux _ _ (lt_of_lt_of_le (Nat.lt_pow_self (by norm_num) n)
      (Nat.pow_le_pow_right (by norm_num) (Nat.le_succ n)))
  rw [← hm, hdata, hn]

theorem natStrAux_digits (fuel : Nat) : ∀ (n : Nat) (acc : List Char), ∀ c ∈ natStrAux fuel n acc,
    c ∈ acc ∨ c.isDigit = true := by
  induction fuel with
  | zero => intro n acc c hc; exact Or.inl hc
  | succ f ih =>
    intro n acc c hc
    by_cases h : n < 10
    · simp only [natStrAux, if_pos h, List.mem_cons] at hc
      rcases hc with rfl | hc
      · exact Or.inr (digitChar_isDigit n)
      · exact Or.inl hc
    · simp only [natStrAux, if_neg h] at hc
      rcases ih (n / 10) (digitChar (n % 10) :: acc) c hc with hmem | hdig
      · rcases List.mem_cons.mp hmem with rfl | hmem2
        · exact Or.inr (digitChar_isDigit (n % 10))
        · exact Or.inl hmem2
      · exact Or.inr hdig

theorem natStr_digits (n : Nat) : ∀ c ∈ (natStr n).data, c.isDigit = true := by
  intro c hc
  rcases natStrAux_digits (n + 1) n [] c hc with hmem | hdig
  · cases hmem
  · exact hdig

/-! ## The two-decimal shape of formatted amounts -/

theorem data_append (a b : String) : (a ++ b).data = a.data ++ b.data := rfl

theorem formatTwo_twoDecimalFormat (q : ℚ) : twoDecimalFormat (formatTwo q) := by
  unfold formatTwo twoDecimalFormat
  refine ⟨(if roundHalfEven (q * 100) < 0 then "-" else "").data
      ++ (natStr ((roundHalfEven (q * 100)).natAbs / 100)).data,
    digitChar ((roundHalfEven (q * 100)).natAbs / 10 % 10),
    digitChar ((roundHalfEven (q * 100)).natAbs % 10), ?_, ?_, digitChar_isDigit _,
    digitChar_isDigit _⟩
  · simp only [data_append, List.append_assoc]
    rfl
  · intro c hc
    rcases List.mem_append.mp hc with hsgn | hdig
    · by_cases hneg : roundHalfEven (q * 100) < 0
      · rw [if_pos hneg] at hsgn
        have : c = '-' := by simpa using hsgn
        subst this
        decide
      · rw [if_neg hneg] at hsgn
        simp at hsgn
    · have := natStr_digits _ c hdig
      intro hdot
      subst hdot
      simp at this

/-! ## Claims about the stores and the budget ledger -/

/-- Claim C2: for every (description, amountRaw, category) where amountRaw
parses as a decimal number with value ≥ 0 and the trimmed description is
non-empty, `add_expense` increases the expense count by exactly 1, prepends
the new record, and stores its amount as a string with exactly two decimal
digits. -/
theorem claim_C2 (s : AppState) (description amountRaw : String)
    (categoryInput : Option String) (q : ℚ)
    (hparse : parseFloat (pyStrip amountRaw) = some q) (hq : 0 ≤ q)
    (hdesc : pyStrip description ≠ "") :
    (add_expense s (some description) (some amountRaw) categoryInput).expenses
        = { expense_id := natStr s.expense_id_counter, description := pyStrip description,
            amount := formatTwo q, category := pyStrip (categoryInput.getD "Other") }
          :: s.expenses
    ∧ (add_expense s (some description) (some amountRaw) categoryInput).expenses.length
        = s.expenses.length + 1
    ∧ twoDecimalFormat (formatTwo q) := by
  simp only [add_expense, Option.getD_some, hparse]
  rw [if_pos ⟨hdesc, hq⟩]
  exact ⟨rfl, by simp, formatTwo_twoDecimalFormat q⟩

theorem claim_C2_witness :
    (add_expense initialState (some "Coffee") (some "3.5") (some "Food")).expenses
      = [{ expense_id := "1", description := "Coffee", amount := "3.50", category := "Food" }]
    ∧ formatTwo (7 / 2) = "3.50" := by
  have h := claim_C2 initialState "Coffee" "3.5" (some "Food") (7 / 2)
    (by decide) (by norm_num) (by decide)
  refine ⟨?_, by decide⟩
  rw [h.1]
  decide

/-- Claim C3: `set_budget` leaves the state unchanged when the raw string
does not parse or parses to a negative value, and overwrites the budget with
the parsed value rounded to two decimals otherwise. -/
theorem claim_C3 (s : AppState) (raw : String) :
    (parseFloat (pyStrip raw) = none → set_budget s (some raw) = s)
    ∧ (∀ q : ℚ, parseFloat (pyStrip raw) = some q → q < 0 → set_budget s (some raw) = s)
    ∧ (∀ q : ℚ, parseFloat (pyStrip raw) = some q → 0 ≤ q →
        set_budget s (some raw) = { s with total_trip_budget := round2 q }) := by
  refine ⟨?_, ?_, ?_⟩
  · intro h
    simp only [set_budget, Option.getD_some, h]
  · intro q h hneg
    simp only [set_budget, Option.getD_some, h]
    rw [if_neg (not_le.mpr hneg)]
  · intro q h hpos
    simp only [set_budget, Option.getD_some, h]
    rw [if_pos hpos]

theorem claim_C3_witness :
    set_budget (set_budget initialState (some "2500")) (some "abc")
      = { initialState with total_trip_budget := 2500 } := by
  have h1 := (claim_C3 initialState "2500").2.2 2500 (by decide) (by norm_num)
  have h2 := (claim_C3 (set_budget initialState (some "2500")) "abc").1 (by decide)
  rw [h2, h1]
  have : round2 (2500 : ℚ) = 2500 := by decide
  rw [this]

/-- Claim C4: `add_task` with non-empty trimmed text assigns the next id
from the counter and prepends the new task; with empty trimmed text it is a
no-op on the whole state. -/
theorem claim_C4 (s : AppState) (text : String) (locationInput : Option String) :
    (pyStrip text ≠ "" →
      (add_task s (some text) locationInput).tasks
          = { task_id := natStr s.task_id_counter, text := pyStrip text,
              location := pyStrip (locationInput.getD "") } :: s.tasks
        ∧ (add_task s (some text) locationInput).tasks.length = s.tasks.length + 1
        ∧ (add_task s (some text) locationInput).task_id_counter = s.task_id_counter + 1)
    ∧ (pyStrip text = "" → add_task s (some text) locationInput = s) := by
  constructor
  · intro h
    simp [add_task, Option.getD_some, if_pos h]
  · intro h
    simp only [add_task, Option.getD_some, h]
    simp

theorem claim_C4_witness :
    (add_task initialState (some "Pack bags") (some "")).tasks
        = [{ task_id := "1", text := "Pack bags", location := "" }]
    ∧ add_task initialState (some "   ") none = initialState := by
  have h := claim_C4 initialState "Pack bags" (some "")
  have h2 := claim_C4 initialState "   " none
  refine ⟨?_, h2.2 (by decide)⟩
  rw [(h.1 (by decide)).1]
  decide

/-- Claim C5: `add_expense` is a no-op on the whole state when the amount
fails to parse, parses negative, or the trimmed description is empty. -/
theorem claim_C5 (s : AppState) (descriptionInput amountInput categoryInput : Option String) :
    (parseFloat (pyStrip (amountInput.getD "")) = none →
      add_expense s descriptionInput amountInput categoryInput = s)
    ∧ (∀ q : ℚ, parseFloat (pyStrip (amountInput.getD "")) = some q → q < 0 →
      add_expense s descriptionInput amountInput categoryInput = s)
    ∧ (pyStrip (descriptionInput.getD "") = "" →
      add_expense s descriptionInput amountInput categoryInput = s) := by
  refine ⟨?_, ?_, ?_⟩
  · intro h
    simp only [add_expense, h]
  · intro q h hneg
    simp only [add_expense, h]
    rw [if_neg (fun hand => absurd hand.2 (not_le.mpr hneg))]
  · intro h
    simp only [add_expense]
    cases hp : parseFloat (pyStrip (amountInput.getD "")) with
    | none => rfl
    | some q => exact if_neg (fun hand => absurd h hand.1)

theorem claim_C5_witness :
    add_expense initialState (some "Tea") (some "-1") (some "Food") = initialState
    ∧ add_expense initialState (some "") (some "5") (some "Food") = initialState := by
  have h1 := (claim_C5 initialState (some "Tea") (some "-1") (some "Food")).2.1 (-1)
    (by decide) (by norm_num)
  have h2 := (claim_C5 initialState (some "") (some "5") (some "Food")).2.2 (by decide)
  exact ⟨h1, h2⟩

/-- Fold of the `index` sum over expenses whose stored amounts all parse. -/
theorem sumStep_foldl (es : List Expense) (qs : List ℚ)
    (h : List.Forall₂ (fun e q => parseFloat e.amount = some q) es qs) :
    ∀ a : ℚ, es.foldl sumStep (Except.ok a) = Except.ok (a + qs.sum) := by
  induction h with
  | nil => intro a; simp
  | @cons e q es2 qs2 hpq htail ih =>
    intro a
    have hstep : sumStep (Except.ok a) e = Except.ok (a + q) := by
      simp only [sumStep, hpq]
    simp only [List.foldl_cons, hstep]
    rw [ih (a + q), List.sum_cons]
    ring_nf

/-- Claim C6: for every budget value and every list of stored expenses whose
amounts parse, the remaining budget computed by `index` equals the total
budget minus the sum of the stored amounts, recomputed from the current
state; the value may be negative. -/
theorem claim_C6 (s : AppState) (qs : List ℚ)
    (h : List.Forall₂ (fun e q => parseFloat e.amount = some q) s.expenses qs) :
    total_expenses s = Except.ok qs.sum
    ∧ remaining_budget s = Except.ok (s.total_trip_budget - qs.sum) := by
  have h1 : total_expenses s = Except.ok qs.sum := by
    unfold total_expenses
    rw [sumStep_foldl s.expenses qs h 0, zero_add]
  refine ⟨h1, ?_⟩
  unfold remaining_budget
  rw [h1]
  rfl

theorem claim_C6_witness :
    remaining_budget overBudgetState = Except.ok (-50) ∧ (-50 : ℚ) < 0 := by
  have h := claim_C6 overBudgetState [150]
    (List.Forall₂.cons (by decide) List.Forall₂.nil)
  refine ⟨?_, by norm_num⟩
  rw [h.2]
  norm_num [overBudgetState]

/-- Counterexample to claim C7: a present-but-blank category field is stored
as the empty string, not as "Other". -/
theorem claim_C7_counterexample :
    (add_expense initialState (some "Snack") (some "5") (some " ")).expenses.map
        Expense.category = [""]
    ∧ (add_expense initialState (some "Snack") (some "5") (some " ")).expenses.map
        Expense.category ≠ ["Other"] := by
  constructor <;> decide

/-- Claim C7 as amended: for every `add_expense` call that creates a record,
the stored category is the trimmed category input when the field is present,
and "Other" exactly when the field is absent from the form. -/
theorem claim_C7_amended (s : AppState) (description amountRaw : String)
    (categoryInput : Option String) (q : ℚ)
    (hparse : parseFloat (pyStrip amountRaw) = some q) (hq : 0 ≤ q)
    (hdesc : pyStrip description ≠ "") :
    ((add_expense s (some description) (some amountRaw) categoryInput).expenses.head?).map
        Expense.category = some (pyStrip (categoryInput.getD "Other"))
    ∧ (categoryInput = none →
      ((add_expense s (some description) (some amountRaw) categoryInput).expenses.head?).map
          Expense.category = some "Other") := by
  have hmain :
      ((add_expense s (some description) (some amountRaw) categoryInput).expenses.head?).map
        Expense.category = some (pyStrip (categoryInput.getD "Other")) := by
    simp only [add_expense, Option.getD_some, hparse]
    rw [if_pos ⟨hdesc, hq⟩]
    rfl
  refine ⟨hmain, ?_⟩
  intro hnone
  subst hnone
  simpa using hmain

theorem claim_C7_amended_witness :
    ((add_expense initialState (some "Bus") (some "2") none).expenses.head?).map
        Expense.category = some "Other" := by
  have h := claim_C7_amended initialState "Bus" "2" none 2 (by decide) (by norm_num) (by decide)
  exact h.2 rfl

/-- Claim C10: a POST to /set_budget whose form data has no
'total-budget-input' field overwrites the budget with 0.00 (the substituted
default raw string "0.00" parses and is non-negative). -/
theorem claim_C10 (s : AppState) :
    set_budget s none = { s with total_trip_budget := 0 } := by
  have h : parseFloat (pyStrip "0.00") = some 0 := by decide
  simp only [set_budget, Option.getD_none, h]
  rw [if_pos (le_refl (0 : ℚ))]
  have h2 : round2 (0 : ℚ) = 0 := by decide
  rw [h2]

/-! ## Id uniqueness along operation traces (claim C9) -/

theorem applyOp_task_counter (s : AppState) (op : Op) :
    (applyOp s op).task_id_counter = s.task_id_counter
    ∨ (applyOp s op).task_id_counter = s.task_id_counter + 1 := by
  cases op <;>
    simp only [applyOp, add_task, delete_task, add_expense, delete_expense, set_budget] <;>
    repeat' split
  all_goals first
    | exact Or.inl rfl
    | exact Or.inr rfl
    | exact Or.inl trivial

theorem applyOp_expense_counter (s : AppState) (op : Op) :
    (applyOp s op).expense_id_counter = s.expense_id_counter
    ∨ (applyOp s op).expense_id_counter = s.expense_id_counter + 1 := by
  cases op <;>
    simp only [applyOp, add_task, delete_task, add_expense, delete_expense, set_budget] <;>
    repeat' split
  all_goals first
    | exact Or.inl rfl
    | exact Or.inr rfl
    | exact Or.inl trivial

theorem runOps_cons (s : AppState) (op : Op) (ops : List Op) :
    runOps s (op :: ops) = runOps (applyOp s op) ops := rfl

theorem runOps_task_mono (ops : List Op) : ∀ s : AppState,
    s.task_id_counter ≤ (runOps s ops).task_id_counter := by
  induction ops with
  | nil => intro s; exact le_refl _
  | cons op ops ih =>
    intro s
    have h1 := applyOp_task_counter s op
    have h2 := ih (applyOp s op)
    rw [runOps_cons]
    rcases h1 with h1 | h1 <;> omega

theorem runOps_expense_mono (ops : List Op) : ∀ s : AppState,
    s.expense_id_counter ≤ (runOps s ops).expense_id_counter := by
  induction ops with
  | nil => intro s; exact le_refl _
  | cons op ops ih =>
    intro s
    have h1 := applyOp_expense_counter s op
    have h2 := ih (applyOp s op)
    rw [runOps_cons]
    rcases h1 with h1 | h1 <;> omega

/-- Every task id issued along a trace is `natStr n` for some `n` at least the
starting counter and strictly below the final counter. -/
theorem issuedTaskIds_bound (ops : List Op) : ∀ (s : AppState) (idStr : String),
    idStr ∈ issuedTaskIds s ops →
    ∃ n, idStr = natStr n ∧ s.task_id_counter ≤ n ∧ n < (runOps s ops).task_id_counter := by
  induction ops with
  | nil => intro s idStr h; simp [issuedTaskIds] at h
  | cons op ops ih =>
    intro s idStr h
    simp only [issuedTaskIds] at h
    rw [runOps_cons]
    rcases List.mem_append.mp h with hhd | htl
    · by_cases hc : (applyOp s op).task_id_counter ≠ s.task_id_counter
      · rw [if_pos hc] at hhd
        simp only [List.mem_singleton] at hhd
        subst hhd
        refine ⟨s.task_id_counter, rfl, le_refl _, ?_⟩
        have h1 : s.task_id_counter < (applyOp s op).task_id_counter := by
          rcases applyOp_task_counter s op with h1 | h1
          · exact absurd h1 hc
          · omega
        have h2 := runOps_task_mono ops (applyOp s op)
        omega
      · rw [if_neg hc] at hhd
        simp at hhd
    · rcases ih (applyOp s op) idStr htl with ⟨n, h1, h2, h3⟩
      have h4 := applyOp_task_counter s op
      exact ⟨n, h1, by rcases h4 with h4 | h4 <;> omega, h3⟩

/-- Every expense id issued along a trace is `natStr n` for some `n` at least
the starting counter and strictly below the final counter. -/
theorem issuedExpenseIds_bound (ops : List Op) : ∀ (s : AppState) (idStr : String),
    idStr ∈ issuedExpenseIds s ops →
    ∃ n, idStr = natStr n ∧ s.expense_id_counter ≤ n
      ∧ n < (runOps s ops).expense_id_counter := by
  induction ops with
  | nil => intro s idStr h; simp [issuedExpenseIds] at h
  | cons op ops ih =>
    intro s idStr h
    simp only [issuedExpenseIds] at h
    rw [runOps_cons]
    rcases List.mem_append.mp h with hhd | htl
    · by_cases hc : (applyOp s op).expense_id_counter ≠ s.expense_id_counter
      · rw [if_pos hc] at hhd
        simp only [List.mem_singleton] at hhd
        subst hhd
        refine ⟨s.expense_id_counter, rfl, le_refl _, ?_⟩
        have h1 : s.expense_id_counter < (applyOp s op).expense_id_counter := by
          rcases applyOp_expense_counter s op with h1 | h1
          · exact absurd h1 hc
          · omega
        have h2 := runOps_expense_mono ops (applyOp s op)
        omega
      · rw [if_neg hc] at hhd
        simp at hhd
    · rcases ih (applyOp s op) idStr htl with ⟨n, h1, h2, h3⟩
      have h4 := applyOp_expense_counter s op
      exact ⟨n, h1, by rcases h4 with h4 | h4 <;> omega, h3⟩

/-- Claim C9: within one process lifetime, task and expense ids are issued
from counters that never decrease, and an id issued by the next operation is
never equal to any id previously issued in the same collection. -/
theorem claim_C9 (ops : List Op) (op : Op) :
    (∀ idStr ∈ issuedTaskIds (runOps initialState ops) [op],
        idStr ∉ issuedTaskIds initialState ops)
    ∧ (∀ idStr ∈ issuedExpenseIds (runOps initialState ops) [op],
        idStr ∉ issuedExpenseIds initialState ops)
    ∧ (runOps initialState ops).task_id_counter
        ≤ (applyOp (runOps initialState ops) op).task_id_counter
    ∧ (runOps initialState ops).expense_id_counter
        ≤ (applyOp (runOps initialState ops) op).expense_id_counter := by
  refine ⟨?_, ?_, ?_, ?_⟩
  · intro idStr hmem hold
    simp only [issuedTaskIds, List.append_nil] at hmem
    by_cases hc : (applyOp (runOps initialState ops) op).task_id_counter
        ≠ (runOps initialState ops).task_id_counter
    · rw [if_pos hc] at hmem
      simp only [List.mem_singleton] at hmem
      subst hmem
      rcases issuedTaskIds_bound ops initialState _ hold with ⟨n, h1, h2, h3⟩
      have := natStr_injective _ _ h1
      omega
    · rw [if_neg hc] at hmem
      simp at hmem
  · intro idStr hmem hold
    simp only [issuedExpenseIds, List.append_nil] at hmem
    by_cases hc : (applyOp (runOps initialState ops) op).expense_id_counter
        ≠ (runOps initialState ops).expense_id_counter
    · rw [if_pos hc] at hmem
      simp only [List.mem_singleton] at hmem
      subst hmem
      rcases issuedExpenseIds_bound ops initialState _ hold with ⟨n, h1, h2, h3⟩
      have := natStr_injective _ _ h1
      omega
    · rw [if_neg hc] at hmem
      simp at hmem
  · rcases applyOp_task_counter (runOps initialState ops) op with h | h <;> omega
  · rcases applyOp_expense_counter (runOps initialState ops) op with h | h <;> omega

theorem claim_C9_witness :
    ("2" : String) ∉ issuedTaskIds initialState [Op.addTaskOp (some "pack") none] := by
  have h := claim_C9 [Op.addTaskOp (some "pack") none] (Op.addTaskOp (some "shop") none)
  exact h.1 "2" (by decide)

/-! ## The retry loop of the suggestion gateway (claims C1 and C8) -/

theorem suggestionLoop_succ_err (resps : Nat → Except Unit HttpResp) (f i : Nat) (delay : ℚ)
    (slept : List ℚ) (u : Unit) (hres : resps i = Except.error u) :
    suggestionLoop resps (f + 1) i delay slept
      = { response := Json.arr [], attempts := i + 1, sleeps := slept.reverse } := by
  simp only [suggestionLoop, hres]

theorem suggestionLoop_succ_badbody (resps : Nat → Except Unit HttpResp) (f i : Nat) (delay : ℚ)
    (slept : List ℚ) (r : HttpResp) (u : Unit) (hres : resps i = Except.ok r)
    (h200 : r.status = 200) (hb : r.body = Except.error u) :
    suggestionLoop resps (f + 1) i delay slept
      = { response := Json.arr [], attempts := i + 1, sleeps := slept.reverse } := by
  simp only [suggestionLoop, hres, if_pos h200, hb]

theorem suggestionLoop_succ_200 (resps : Nat → Except Unit HttpResp) (f i : Nat) (delay : ℚ)
    (slept : List ℚ) (r : HttpResp) (result : Json) (hres : resps i = Except.ok r)
    (h200 : r.status = 200) (hb : r.body = Except.ok result) :
    suggestionLoop resps (f + 1) i delay slept
      = { response := handle200 result, attempts := i + 1, sleeps := slept.reverse } := by
  simp only [suggestionLoop, hres, if_pos h200, hb]

theorem suggestionLoop_succ_retry (resps : Nat → Except Unit HttpResp) (f i : Nat) (delay : ℚ)
    (slept : List ℚ) (r : HttpResp) (hres : resps i = Except.ok r) (h200 : r.status ≠ 200)
    (hretry : retryableStatus r.status = true) (hf : 0 < f) :
    suggestionLoop resps (f + 1) i delay slept
      = suggestionLoop resps f (i + 1) (delay * 2) (delay :: slept) := by
  simp only [suggestionLoop, hres, if_neg h200, if_pos (And.intro hretry hf)]

theorem suggestionLoop_succ_stop (resps : Nat → Except Unit HttpResp) (f i : Nat) (delay : ℚ)
    (slept : List ℚ) (r : HttpResp) (hres : resps i = Except.ok r) (h200 : r.status ≠ 200)
    (hstop : ¬(retryableStatus r.status = true ∧ 0 < f)) :
    suggestionLoop resps (f + 1) i delay slept
      = { response := Json.arr [], attempts := i + 1, sleeps := slept.reverse } := by
  simp only [suggestionLoop, hres, if_neg h200, if_neg hstop]

theorem suggestionLoop_attempts_le (resps : Nat → Except Unit HttpResp) :
    ∀ (fuel i : Nat) (delay : ℚ) (slept : List ℚ),
      (suggestionLoop resps fuel i delay slept).attempts ≤ i + fuel := by
  intro fuel
  induction fuel with
  | zero => intro i delay slept; exact Nat.le_add_right i 0
  | succ f ih =>
    intro i delay slept
    cases hres : resps i with
    | error u =>
      rw [suggestionLoop_succ_err resps f i delay slept u hres]
      show i + 1 ≤ i + (f + 1)
      omega
    | ok r =>
      by_cases h200 : r.status = 200
      · cases hb : r.body with
        | error u =>
          rw [suggestionLoop_succ_badbody resps f i delay slept r u hres h200 hb]
          show i + 1 ≤ i + (f + 1)
          omega
        | ok result =>
          rw [suggestionLoop_succ_200 resps f i delay slept r result hres h200 hb]
          show i + 1 ≤ i + (f + 1)
          omega
      · by_cases hretry : retryableStatus r.status = true ∧ 0 < f
        · rw [suggestionLoop_succ_retry resps f i delay slept r hres h200 hretry.1 hretry.2]
          have := ih (i + 1) (delay * 2) (delay :: slept)
          omega
        · rw [suggestionLoop_succ_stop resps f i delay slept r hres h200 hretry]
          show i + 1 ≤ i + (f + 1)
          omega

theorem suggestionLoop_attempts_lt (resps : Nat → Except Unit HttpResp) :
    ∀ (fuel i : Nat) (delay : ℚ) (slept : List ℚ), 0 < fuel →
      i < (suggestionLoop resps fuel i delay slept).attempts := by
  intro fuel
  induction fuel with
  | zero => intro i delay slept h; omega
  | succ f ih =>
    intro i delay slept _
    cases hres : resps i with
    | error u =>
      rw [suggestionLoop_succ_err resps f i delay slept u hres]
      show i < i + 1
      omega
    | ok r =>
      by_cases h200 : r.status = 200
      · cases hb : r.body with
        | error u =>
          rw [suggestionLoop_succ_badbody resps f i delay slept r u hres h200 hb]
          show i < i + 1
          omega
        | ok result =>
          rw [suggestionLoop_succ_200 resps f i delay slept r result hres h200 hb]
          show i < i + 1
          omega
      · by_cases hretry : retryableStatus r.status = true ∧ 0 < f
        · rw [suggestionLoop_succ_retry resps f i delay slept r hres h200 hretry.1 hretry.2]
          have := ih (i + 1) (delay * 2) (delay :: slept) hretry.2
          omega
        · rw [suggestionLoop_succ_stop resps f i delay slept r hres h200 hretry]
          show i < i + 1
          omega

theorem suggestionLoop_sleeps (resps : Nat → Except Unit HttpResp) :
    ∀ (fuel i : Nat) (delay : ℚ) (slept : List ℚ),
      (suggestionLoop resps fuel i delay slept).sleeps
        = slept.reverse
          ++ doublingFrom delay ((suggestionLoop resps fuel i delay slept).attempts - i - 1) := by
  intro fuel
  induction fuel with
  | zero =>
    intro i delay slept
    have h : i - i - 1 = 0 := by omega
    show slept.reverse = slept.reverse ++ doublingFrom delay (i - i - 1)
    rw [h]
    simp [doublingFrom]
  | succ f ih =>
    intro i delay slept
    have hsimple : ∀ g : GatewayResult, g.attempts = i + 1 → g.sleeps = slept.reverse →
        g.sleeps = slept.reverse ++ doublingFrom delay (g.attempts - i - 1) := by
      intro g ha hs
      rw [ha, hs]
      have h : i + 1 - i - 1 = 0 := by omega
      rw [h]
      simp [doublingFrom]
    cases hres : resps i with
    | error u =>
      rw [suggestionLoop_succ_err resps f i delay slept u hres]
      exact hsimple _ rfl rfl
    | ok r =>
      by_cases h200 : r.status = 200
      · cases hb : r.body with
        | error u =>
          rw [suggestionLoop_succ_badbody resps f i delay slept r u hres h200 hb]
          exact hsimple _ rfl rfl
        | ok result =>
          rw [suggestionLoop_succ_200 resps f i delay slept r result hres h200 hb]
          exact hsimple _ rfl rfl
      · by_cases hretry : retryableStatus r.status = true ∧ 0 < f
        · rw [suggestionLoop_succ_retry resps f i delay slept r hres h200 hretry.1 hretry.2]
          have hlt := suggestionLoop_attempts_lt resps f (i + 1) (delay * 2) (delay :: slept)
            hretry.2
          have hrec := ih (i + 1) (delay * 2) (delay :: slept)
          rw [hrec]
          have h1 : (suggestionLoop resps f (i + 1) (delay * 2) (delay :: slept)).attempts - i - 1
              = ((suggestionLoop resps f (i + 1) (delay * 2) (delay :: slept)).attempts - i - 2)
                + 1 := by omega
          have h2 : (suggestionLoop resps f (i + 1) (delay * 2) (delay :: slept)).attempts
              - (i + 1) - 1
              = (suggestionLoop resps f (i + 1) (delay * 2) (delay :: slept)).attempts - i - 2 := by
            omega
          rw [h1, h2, doublingFrom]
          simp
        · rw [suggestionLoop_succ_stop resps f i delay slept r hres h200 hretry]
          exact hsimple _ rfl rfl

theorem suggestionLoop_retryable (resps : Nat → Except Unit HttpResp) :
    ∀ (fuel i : Nat) (delay : ℚ) (slept : List ℚ) (j : Nat), i ≤ j →
      j + 1 < (suggestionLoop resps fuel i delay slept).attempts →
      ∃ r, resps j = Except.ok r ∧ retryableStatus r.status = true := by
  intro fuel
  induction fuel with
  | zero =>
    intro i delay slept j hij hj
    exfalso
    have hj2 : j + 1 < i := hj
    omega
  | succ f ih =>
    intro i delay slept j hij hj
    cases hres : resps i with
    | error u =>
      rw [suggestionLoop_succ_err resps f i delay slept u hres] at hj
      exfalso
      have hj2 : j + 1 < i + 1 := hj
      omega
    | ok r =>
      by_cases h200 : r.status = 200
      · cases hb : r.body with
        | error u =>
          rw [suggestionLoop_succ_badbody resps f i delay slept r u hres h200 hb] at hj
          exfalso
          have hj2 : j + 1 < i + 1 := hj
          omega
        | ok result =>
          rw [suggestionLoop_succ_200 resps f i delay slept r result hres h200 hb] at hj
          exfalso
          have hj2 : j + 1 < i + 1 := hj
          omega
      · by_cases hretry : retryableStatus r.status = true ∧ 0 < f
        · rw [suggestionLoop_succ_retry resps f i delay slept r hres h200 hretry.1 hretry.2] at hj
          rcases Nat.eq_or_lt_of_le hij with rfl | hlt
          · exact ⟨r, hres, hretry.1⟩
          · exact ih (i + 1) (delay * 2) (delay :: slept) j hlt hj
        · rw [suggestionLoop_succ_stop resps f i delay slept r hres h200 hretry] at hj
          exfalso
          have hj2 : j + 1 < i + 1 := hj
          omega

theorem suggestionLoop_200_stops (resps : Nat → Except Unit HttpResp) :
    ∀ (fuel i : Nat) (delay : ℚ) (slept : List ℚ) (j : Nat) (r : HttpResp), i ≤ j →
      j < (suggestionLoop resps fuel i delay slept).attempts →
      resps j = Except.ok r → r.status = 200 →
      j + 1 = (suggestionLoop resps fuel i delay slept).attempts := by
  intro fuel
  induction fuel with
  | zero =>
    intro i delay slept j r hij hj hr h200
    exfalso
    have hj2 : j < i := hj
    omega
  | succ f ih =>
    intro i delay slept j r hij hj hr h200
    cases hres : resps i with
    | error u =>
      rw [suggestionLoop_succ_err resps f i delay slept u hres] at hj ⊢
      show j + 1 = i + 1
      have hj2 : j < i + 1 := hj
      omega
    | ok r2 =>
      by_cases h2200 : r2.status = 200
      · cases hb : r2.body with
        | error u =>
          rw [suggestionLoop_succ_badbody resps f i delay slept r2 u hres h2200 hb] at hj ⊢
          show j + 1 = i + 1
          have hj2 : j < i + 1 := hj
          omega
        | ok result =>
          rw [suggestionLoop_succ_200 resps f i delay slept r2 result hres h2200 hb] at hj ⊢
          show j + 1 = i + 1
          have hj2 : j < i + 1 := hj
          omega
      · by_cases hretry : retryableStatus r2.status = true ∧ 0 < f
        · rw [suggestionLoop_succ_retry resps f i delay slept r2 hres h2200 hretry.1 hretry.2]
            at hj ⊢
          rcases Nat.eq_or_lt_of_le hij with rfl | hlt
          · rw [hres] at hr
            cases hr
            exact absurd h200 h2200
          · exact ih (i + 1) (delay * 2) (delay :: slept) j r hlt hj hr h200
        · rw [suggestionLoop_succ_stop resps f i delay slept r2 hres h2200 hretry] at hj ⊢
          show j + 1 = i + 1
          have hj2 : j < i + 1 := hj
          omega

theorem suggestionLoop_no200 (resps : Nat → Except Unit HttpResp) :
    ∀ (fuel i : Nat) (delay : ℚ) (slept : List ℚ),
      (∀ (j : Nat) (r : HttpResp), i ≤ j →
        j < (suggestionLoop resps fuel i delay slept).attempts →
        resps j = Except.ok r → r.status ≠ 200) →
      (suggestionLoop resps fuel i delay slept).response = Json.arr [] := by
  intro fuel
  induction fuel with
  | zero => intro i delay slept _; rfl
  | succ f ih =>
    intro i delay slept h
    cases hres : resps i with
    | error u =>
      rw [suggestionLoop_succ_err resps f i delay slept u hres]
    | ok r =>
      by_cases h200 : r.status = 200
      · exfalso
        have hlt := suggestionLoop_attempts_lt resps (f + 1) i delay slept (Nat.succ_pos f)
        exact h i r (le_refl i) hlt hres h200
      · by_cases hretry : retryableStatus r.status = true ∧ 0 < f
        · have heq := suggestionLoop_succ_retry resps f i delay slept r hres h200
            hretry.1 hretry.2
          rw [heq] at h ⊢
          exact ih (i + 1) (delay * 2) (delay :: slept)
            (fun j r2 hij hj hr2 => h j r2 (by omega) hj hr2)
        · rw [suggestionLoop_succ_stop resps f i delay slept r hres h200 hretry]

theorem suggestionLoop_response_cases (resps : Nat → Except Unit HttpResp) :
    ∀ (fuel i : Nat) (delay : ℚ) (slept : List ℚ),
      (suggestionLoop resps fuel i delay slept).response = Json.arr []
      ∨ ∃ j r result, resps j = Except.ok r ∧ r.status = 200 ∧ r.body = Except.ok result
          ∧ j + 1 = (suggestionLoop resps fuel i delay slept).attempts
          ∧ (suggestionLoop resps fuel i delay slept).response = handle200 result := by
  intro fuel
  induction fuel with
  | zero => intro i delay slept; exact Or.inl rfl
  | succ f ih =>
    intro i delay slept
    cases hres : resps i with
    | error u =>
      rw [suggestionLoop_succ_err resps f i delay slept u hres]
      exact Or.inl rfl
    | ok r =>
      by_cases h200 : r.status = 200
      · cases hb : r.body with
        | error u =>
          rw [suggestionLoop_succ_badbody resps f i delay slept r u hres h200 hb]
          exact Or.inl rfl
        | ok result =>
          rw [suggestionLoop_succ_200 resps f i delay slept r result hres h200 hb]
          exact Or.inr ⟨i, r, result, hres, h200, hb, rfl, rfl⟩
      · by_cases hretry : retryableStatus r.status = true ∧ 0 < f
        · rw [suggestionLoop_succ_retry resps f i delay slept r hres h200 hretry.1 hretry.2]
          exact ih (i + 1) (delay * 2) (delay :: slept)
        · rw [suggestionLoop_succ_stop resps f i delay slept r hres h200 hretry]
          exact Or.inl rfl

/-- Outcome of the 200 branch: either everything degrades to `jsonify([])`,
or the extracted text is a string that parses and is returned as-is. -/
theorem handle200_cases (result : Json) :
    handle200 result = Json.arr []
    ∨ ∃ s v, extractText result = Except.ok (Json.str s) ∧ loads s = Except.ok v
        ∧ handle200 result = v := by
  cases hx : extractText result with
  | error u => exact Or.inl (by simp only [handle200, hx])
  | ok j =>
    cases j with
    | str s =>
      cases hl : loads s with
      | ok v =>
        refine Or.inr ⟨s, v, rfl, hl, ?_⟩
        simp only [handle200, hx, hl]
      | error u => exact Or.inl (by simp only [handle200, hx, hl])
    | null => exact Or.inl (by simp only [handle200, hx])
    | bool b => exact Or.inl (by simp only [handle200, hx])
    | num q => exact Or.inl (by simp only [handle200, hx])
    | arr xs => exact Or.inl (by simp only [handle200, hx])
    | obj fs => exact Or.inl (by simp only [handle200, hx])

theorem doublingFrom_one (k : Nat) (hk : k ≤ 2) : doublingFrom 1 k = List.take k [1, 2] := by
  interval_cases k <;> decide

/-- Claim C1: for every query and every sequence of backend responses the
gateway makes at most 3 attempts; sleeps are exactly 1s before the second
attempt and 2s before the third; every non-final attempt saw a retryable
status (429, 500 or 503) — in particular a 200 answer, even one whose JSON
payload fails to parse, is never retried — and if no attempt answered 200
(other non-200 status, transport failure or exhaustion of the retries) the
call terminates with the empty array; the embedding is total, so no error
ever propagates to the caller. -/
theorem claim_C1 (query : Option String) (resps : Nat → Except Unit HttpResp) :
    (get_suggestions query resps).attempts ≤ max_retries
    ∧ (get_suggestions query resps).sleeps
        = List.take ((get_suggestions query resps).attempts - 1) [1, 2]
    ∧ (∀ j : Nat, j + 1 < (get_suggestions query resps).attempts →
        ∃ r, resps j = Except.ok r ∧ retryableStatus r.status = true)
    ∧ (∀ (j : Nat) (r : HttpResp), resps j = Except.ok r → r.status = 200 →
        j < (get_suggestions query resps).attempts →
        j + 1 = (get_suggestions query resps).attempts)
    ∧ ((∀ (j : Nat) (r : HttpResp), j < (get_suggestions query resps).attempts →
        resps j = Except.ok r → r.status ≠ 200) →
        (get_suggestions query resps).response = Json.arr []) := by
  unfold get_suggestions
  by_cases hq : (pyStrip (query.getD "")).length < 3
  · rw [if_pos hq]
    refine ⟨by norm_num [max_retries], rfl, ?_, ?_, ?_⟩
    · intro j hj
      exfalso
      have hj2 : j + 1 < 0 := hj
      omega
    · intro j r _ _ hj
      exfalso
      have hj2 : j < 0 := hj
      omega
    · intro _
      rfl
  · rw [if_neg hq]
    have hub : (suggestionLoop resps max_retries 0 1 []).attempts ≤ 3 :=
      suggestionLoop_attempts_le resps max_retries 0 1 []
    have hsl := suggestionLoop_sleeps resps max_retries 0 1 []
    refine ⟨hub, ?_, ?_, ?_, ?_⟩
    · rw [hsl]
      have hk2 : (suggestionLoop resps max_retries 0 1 []).attempts - 0 - 1
          = (suggestionLoop resps max_retries 0 1 []).attempts - 1 := by omega
      rw [hk2]
      have hk : (suggestionLoop resps max_retries 0 1 []).attempts - 1 ≤ 2 := by omega
      rw [doublingFrom_one _ hk]
      simp
    · intro j hj
      exact suggestionLoop_retryable resps max_retries 0 1 [] j (Nat.zero_le j) hj
    · intro j r hr h200 hj
      exact suggestionLoop_200_stops resps max_retries 0 1 [] j r (Nat.zero_le j) hj hr h200
    · intro h
      exact suggestionLoop_no200 resps max_retries 0 1 []
        (fun j r _ hj hr => h j r hj hr)

theorem claim_C1_witness :
    (get_suggestions (some "italian food") retryScenario).attempts ≤ max_retries
    ∧ (get_suggestions (some "italian food") retryScenario).sleeps = [1, 2]
    ∧ (∃ r, retryScenario 0 = Except.ok r ∧ retryableStatus r.status = true) := by
  have h := claim_C1 (some "italian food") retryScenario
  refine ⟨h.1, ?_, h.2.2.1 0 (by decide)⟩
  rw [h.2.1]
  decide

/-- Counterexample to claim C8: a 200 response with the candidate structure
missing makes the extracted text default to the string `"{}"`, which parses
to a JSON object, and the handler returns that object — not a JSON array. -/
theorem claim_C8_counterexample :
    (get_suggestions (some "london") objOnlyBackend).response = Json.obj []
    ∧ isArr (get_suggestions (some "london") objOnlyBackend).response = false := by
  exact ⟨rfl, rfl⟩

/-- Claim C8 as amended: every response of POST /get_suggestions is either
the empty JSON array (all failure paths) or the JSON value parsed from the
model payload returned as-is — an array exactly when the payload parsed to
an array, with no wrapping or validation of non-array payloads. -/
theorem claim_C8_amended (query : Option String) (resps : Nat → Except Unit HttpResp) :
    (get_suggestions query resps).response = Json.arr []
    ∨ ∃ j r result s v,
        resps j = Except.ok r ∧ r.status = 200 ∧ r.body = Except.ok result
        ∧ extractText result = Except.ok (Json.str s) ∧ loads s = Except.ok v
        ∧ (get_suggestions query resps).response = v := by
  unfold get_suggestions
  by_cases hq : (pyStrip (query.getD "")).length < 3
  · rw [if_pos hq]
    exact Or.inl rfl
  · rw [if_neg hq]
    rcases suggestionLoop_response_cases resps max_retries 0 1 [] with hempty |
      ⟨j, r, result, hres, h200, hb, _, hresp⟩
    · exact Or.inl hempty
    · rcases handle200_cases result with harr | ⟨s0, v, hx, hl, hv⟩
      · exact Or.inl (hresp.trans harr)
      · exact Or.inr ⟨j, r, result, s0, v, hres, h200, hb, hx, hl, hresp.trans hv⟩

end RatEval

end FlaskTrip
